import Mathlib

/-!
# A verification development for the to-do HTTP service (`src/main.go`)

The four request handlers `fetchTodos`, `createTodo`, `updateTodo` and
`deleteTodo` are embedded as pure functions from an environment, a request and
the contents of the `todo` collection to a result (what was written to the
response writer, which store calls were issued, and the collection afterwards).

The handlers call libraries that are not part of the repository.  They are
modelled by their documented behaviour:

* `encoding/hex`, `bson.ObjectId`, `bson.IsObjectIdHex`, `bson.ObjectIdHex`,
  `bson.NewObjectId` and `strings.TrimSpace`;
* the BSON encoding of `todoModel` (struct tags of `src/main.go` lines 31-36)
  and the decoding of a stored document back into a `todoModel`;
* the collection operations `Find(..).All`, `Insert`, `Update` and `RemoveId`
  of `mgo`, on a collection held as the list of its documents in natural order.
-/

namespace TodoApp

/-! ## Data model (`src/main.go` lines 31-43) -/

/-- One byte of a Go string. -/
abbrev Byte := Fin 256

/-- Go `bson.ObjectId` (`type ObjectId string`): a byte string, 12 bytes when valid. -/
abbrev ObjectId := List Byte

/-- Go `time.Time`, as the number of nanoseconds since the Unix epoch
(location and monotonic reading are not modelled). -/
abbrev Time := Int

/-- The zero value `time.Time{}`: January 1, year 1, 00:00:00 UTC. -/
def zeroTime : Time := -62135596800000000000

/-- Storage form, `type todoModel struct` (lines 31-36). -/
structure todoModel where
  ID : ObjectId
  Title : String
  Completed : Bool
  CreatedAt : Time
deriving DecidableEq, Repr

/-- Wire form, `type todo struct` (lines 38-43). -/
structure todo where
  ID : String
  Title : String
  Completed : Bool
  CreatedAt : Time
deriving DecidableEq, Repr

/-! ## `encoding/hex` and object identifiers -/

/-- Go `hextable = "0123456789abcdef"`, indexed by a nibble. -/
def hexDigit (n : Nat) : Char :=
  "0123456789abcdef".data.getD n '0'

/-- Go `hex.EncodeToString`: two lower-case digits per byte, high nibble first. -/
def encodeToString (bs : List Byte) : String :=
  String.mk (bs.flatMap (fun b => [hexDigit (b.val / 16), hexDigit (b.val % 16)]))

/-- Go `ObjectId.Hex`: `hex.EncodeToString([]byte(id))`. -/
def ObjectId.Hex (id : ObjectId) : String :=
  encodeToString id

/-- Go `hex.fromHexChar`: the value of one hexadecimal digit, either case.
A character outside ASCII is encoded by bytes of value 128 or more, none of
which is a digit, so it is rejected like any other non-digit. -/
def fromHexChar (c : Char) : Option Nat :=
  let n := c.toNat
  if 48 ≤ n ∧ n ≤ 57 then some (n - 48)
  else if 97 ≤ n ∧ n ≤ 102 then some (n - 97 + 10)
  else if 65 ≤ n ∧ n ≤ 70 then some (n - 65 + 10)
  else none

/-- Go `hex.Decode` on the characters of the input: digits are consumed in
pairs, a non-digit or a dangling last character is an error. -/
def decodeChars : List Char → Option (List Byte)
  | [] => some []
  | [_] => none
  | a :: b :: rest =>
    match fromHexChar a, fromHexChar b with
    | some x, some y =>
      match decodeChars rest with
      | some bs => some (Fin.ofNat (x * 16 + y) :: bs)
      | none => none
    | _, _ => none

/-- Go `hex.DecodeString`. -/
def DecodeString (s : String) : Option (List Byte) :=
  decodeChars s.data

/-- Go `bson.IsObjectIdHex`: `len(s) == 24` (a length in bytes) and
`hex.DecodeString(s)` succeeds. -/
def IsObjectIdHex (s : String) : Bool :=
  if s.utf8ByteSize ≠ 24 then false
  else (DecodeString s).isSome

/-- Go `bson.ObjectIdHex`: the decoded identifier; `none` stands for the panic
`invalid input to ObjectIdHex` raised when decoding fails or the result is not
12 bytes long. -/
def ObjectIdHex (s : String) : Option ObjectId :=
  match DecodeString s with
  | some d => if d.length ≠ 12 then none else some d
  | none => none

/-- Go `unicode.IsSpace`: the Unicode White_Space code points. -/
def isSpace (c : Char) : Bool :=
  let n := c.toNat
  (9 ≤ n && n ≤ 13) || n == 32 || n == 0x85 || n == 0xA0 || n == 0x1680 ||
  (0x2000 ≤ n && n ≤ 0x200A) || n == 0x2028 || n == 0x2029 || n == 0x202F ||
  n == 0x205F || n == 0x3000

/-- Go `strings.TrimSpace`: leading and trailing white space removed. -/
def TrimSpace (s : String) : String :=
  String.mk ((s.data.dropWhile isSpace).rdropWhile isSpace)

/-! ## Environment of one request -/

/-- What one handler invocation reads from outside the program: the entropy
behind `bson.NewObjectId()`, the clock behind `time.Now()`, and whether the
driver fails the single store call of the request (lost connection, timeout)
before the collection is touched. -/
structure Env where
  idSeed : Nat
  now : Time
  storeFault : Option String

/-- Go `bson.NewObjectId`: a 12-byte identifier (timestamp, machine, pid,
counter); here the twelve big-endian bytes of the seed. -/
def NewObjectId (env : Env) : ObjectId :=
  (List.range 12).map (fun i => Fin.ofNat (env.idSeed / 256 ^ (11 - i)))

/-! ## BSON documents -/

/-- The BSON value kinds this program writes, besides the `_id`. -/
inductive BsonValue where
  | str (s : String)
  | bool (b : Bool)
  | datetime (ms : Int)
deriving DecidableEq, Repr

/-- A stored document: its `_id` and its other elements in order. -/
structure Doc where
  id : ObjectId
  fields : List (String × BsonValue)
deriving DecidableEq, Repr

/-- The BSON encoding of a `time.Time`, a count of milliseconds since the Unix
epoch: `s.Unix()*1000 + int64(s.Nanosecond()/1e6)`. -/
def timeToBson (t : Time) : Int :=
  (t / 1000000000) * 1000 + (t % 1000000000) / 1000000

/-- The `time.Time` decoded from a BSON datetime: `i` milliseconds after the epoch. -/
def bsonToTime (ms : Int) : Time :=
  ms * 1000000

/-- The document `bson.Marshal` produces for a `todoModel`, by the struct tags
`_id,omitempty`, `title`, `completed`, `createAt`.  The `_id` is always
written: the only value marshalled is built with `bson.NewObjectId()`, which is
never empty. -/
def marshal (tm : todoModel) : Doc :=
  { id := tm.ID
    fields := [("title", .str tm.Title), ("completed", .bool tm.Completed),
               ("createAt", .datetime (timeToBson tm.CreatedAt))] }

/-- One step of `bson.Unmarshal` into a `todoModel`: an element whose key is
the tag of a field and whose kind suits the field is stored there; any other
element is skipped. Keys are compared exactly. -/
def setField (tm : todoModel) (kv : String × BsonValue) : todoModel :=
  if kv.1 = "title" then
    match kv.2 with
    | .str s => { tm with Title := s }
    | _ => tm
  else if kv.1 = "completed" then
    match kv.2 with
    | .bool b => { tm with Completed := b }
    | _ => tm
  else if kv.1 = "createAt" then
    match kv.2 with
    | .datetime ms => { tm with CreatedAt := bsonToTime ms }
    | _ => tm
  else tm

/-- The `todoModel` that `bson.Unmarshal` fills from a stored document: fields
with no matching element keep their zero value. -/
def unmarshal (d : Doc) : todoModel :=
  d.fields.foldl setField
    { ID := d.id, Title := "", Completed := false, CreatedAt := zeroTime }

/-! ## The collection (`db.C(collectionName)`) -/

/-- The documents of the `todo` collection, in natural order. -/
abbrev Collection := List Doc

/-- Mgo `Find(bson.M{}).All(&todos)`: every document, decoded, in order; the
driver's error when the call fails. -/
def Collection.All (db : Collection) (fault : Option String) : Except String (List todoModel) :=
  match fault with
  | some e => .error e
  | none => .ok (db.map unmarshal)

/-- Mgo `Insert(&tm)` in safe mode: the document is appended, unless the call
fails or its `_id` is already present (unique index on `_id`). -/
def Collection.Insert (db : Collection) (fault : Option String) (doc : Doc) :
    Except String Collection :=
  match fault with
  | some e => .error e
  | none =>
    if db.any (fun d => d.id = doc.id) then .error "E11000 duplicate key error"
    else .ok (db ++ [doc])

/-- The first document with the given `_id` replaced by the given elements,
its `_id` kept; `none` when no document has that `_id`. -/
def replaceFirst (id : ObjectId) (fields : List (String × BsonValue)) :
    Collection → Option Collection
  | [] => none
  | d :: ds =>
    if d.id = id then some ({ id := d.id, fields := fields } :: ds)
    else
      match replaceFirst id fields ds with
      | some ds' => some (d :: ds')
      | none => none

/-- Mgo `Update(bson.M{"_id": id}, update)` with an update document that has no
`$` operator: the first matching document is replaced by the update document
(the `_id` is kept); `ErrNotFound` when nothing matches. -/
def Collection.Update (db : Collection) (fault : Option String) (id : ObjectId)
    (update : List (String × BsonValue)) : Except String Collection :=
  match fault with
  | some e => .error e
  | none =>
    match replaceFirst id update db with
    | some db' => .ok db'
    | none => .error "not found"

/-- The first document with the given `_id` removed; `none` when there is none. -/
def removeFirst (id : ObjectId) : Collection → Option Collection
  | [] => none
  | d :: ds =>
    if d.id = id then some ds
    else
      match removeFirst id ds with
      | some ds' => some (d :: ds')
      | none => none

/-- Mgo `RemoveId(id)`: one document with that `_id` is removed; `ErrNotFound`
when nothing matches. -/
def Collection.RemoveId (db : Collection) (fault : Option String) (id : ObjectId) :
    Except String Collection :=
  match fault with
  | some e => .error e
  | none =>
    match removeFirst id db with
    | some db' => .ok db'
    | none => .error "not found"

/-- The store calls a handler can issue. -/
inductive StoreCall where
  | findAll
  | insert (doc : Doc)
  | update (id : ObjectId) (update : List (String × BsonValue))
  | removeId (id : ObjectId)
deriving DecidableEq, Repr

/-! ## Requests and responses -/

/-- The values the handlers put in a JSON response. -/
inductive JsonValue where
  | str (s : String)
  | err (e : String)
  | todos (l : List todo)
deriving DecidableEq, Repr

/-- The second argument of `rnd.JSON`: a `renderer.M` or a bare value. -/
inductive Body where
  | obj (fields : List (String × JsonValue))
  | val (v : JsonValue)
deriving DecidableEq, Repr

/-- One call `rnd.JSON(w, status, body)`. -/
structure Response where
  status : Nat
  body : Body
deriving DecidableEq, Repr

/-- What a handler did with its response writer: one `rnd.JSON` call, no write
at all, or a panic. -/
inductive Outcome where
  | wrote (r : Response)
  | noWrite
  | panicked
deriving DecidableEq, Repr

/-- The status code the handler wrote, if it wrote a response. -/
def Outcome.status : Outcome → Option Nat
  | .wrote r => some r.status
  | .noWrite => none
  | .panicked => none

/-- The `data` sequence of a response, empty when it has none. -/
def Outcome.data : Outcome → List todo
  | .wrote ⟨_, .obj [("data", .todos l)]⟩ => l
  | _ => []

/-- What a handler reads from `r`: the path parameter `chi.URLParam(r, "id")`
and the result of `json.NewDecoder(r.Body).Decode(&t)`, the decoded `todo` or
the decoder's error. -/
structure Request where
  idParam : String
  body : Except String todo

/-- The result of running a handler: the outcome on the response writer, the
store calls issued, in order, and the collection afterwards. -/
structure Result where
  out : Outcome
  calls : List StoreCall
  store : Collection
deriving DecidableEq, Repr

def StatusOK : Nat := 200
def StatusCreated : Nat := 201
def StatusBadRequest : Nat := 400
def StatusProcessing : Nat := 102

/-! ## The handlers -/

/-- Handler `fetchTodos` (lines 65-91). -/
def fetchTodos (env : Env) (_r : Request) (db : Collection) : Result :=
  match db.All env.storeFault with
  | .error err =>
    ⟨.wrote ⟨StatusProcessing,
      .obj [("message", .str "Failed to fetch todos"), ("error", .err err)]⟩,
     [.findAll], db⟩
  | .ok todos =>
    let todoList := todos.foldl
      (fun acc t => acc ++ [{ ID := t.ID.Hex, Title := t.Title, Completed := t.Completed,
                              CreatedAt := t.CreatedAt : todo }]) []
    ⟨.wrote ⟨StatusOK, .obj [("data", .todos todoList)]⟩, [.findAll], db⟩

/-- Handler `createTodo` (lines 93-132). -/
def createTodo (env : Env) (r : Request) (db : Collection) : Result :=
  match r.body with
  | .error err => ⟨.wrote ⟨StatusProcessing, .val (.err err)⟩, [], db⟩
  | .ok t =>
    if t.Title = "" then
      ⟨.wrote ⟨StatusBadRequest, .obj [("message", .str "Fuck You!")]⟩, [], db⟩
    else
      let tm : todoModel :=
        { ID := NewObjectId env, Title := t.Title, Completed := false, CreatedAt := env.now }
      match db.Insert env.storeFault (marshal tm) with
      | .error dbErr =>
        ⟨.wrote ⟨StatusProcessing,
          .obj [("message", .str "Failed to save todo"), ("error", .err dbErr)]⟩,
         [.insert (marshal tm)], db⟩
      | .ok db' =>
        ⟨.wrote ⟨StatusCreated,
          .obj [("message", .str "Todo Created Successfully"),
                ("Todo ID", .str tm.ID.Hex)]⟩,
         [.insert (marshal tm)], db'⟩

/-- Handler `updateTodo` (lines 134-172). -/
def updateTodo (env : Env) (r : Request) (db : Collection) : Result :=
  let id := TrimSpace r.idParam
  if !IsObjectIdHex id then
    ⟨.wrote ⟨StatusBadRequest, .obj [("message", .str "Invalid id")]⟩, [], db⟩
  else
    match r.body with
    | .error err => ⟨.wrote ⟨StatusProcessing, .val (.err err)⟩, [], db⟩
    | .ok t =>
      if t.Title = "" then
        ⟨.wrote ⟨StatusProcessing, .obj [("message", .str "Title is requried")]⟩, [], db⟩
      else
        match ObjectIdHex id with
        | none => ⟨.panicked, [], db⟩
        | some oid =>
          let update : List (String × BsonValue) :=
            [("title", .str t.Title), ("Completed", .bool t.Completed)]
          match db.Update env.storeFault oid update with
          | .error dbErr =>
            ⟨.wrote ⟨StatusProcessing,
              .obj [("message", .str "Failed to update todo"), ("error", .err dbErr)]⟩,
             [.update oid update], db⟩
          | .ok db' => ⟨.noWrite, [.update oid update], db'⟩

/-- Handler `deleteTodo` (lines 174-198). -/
def deleteTodo (env : Env) (r : Request) (db : Collection) : Result :=
  let id := TrimSpace r.idParam
  if !IsObjectIdHex id then
    ⟨.wrote ⟨StatusBadRequest, .obj [("message", .str "Invalid ID")]⟩, [], db⟩
  else
    match ObjectIdHex id with
    | none => ⟨.panicked, [], db⟩
    | some oid =>
      match db.RemoveId env.storeFault oid with
      | .error err =>
        ⟨.wrote ⟨StatusProcessing,
          .obj [("message", .str "Failed to remove todo"), ("error", .err err)]⟩,
         [.removeId oid], db⟩
      | .ok db' =>
        ⟨.wrote ⟨StatusOK, .obj [("message", .str "Todo deleted successfully")]⟩,
         [.removeId oid], db'⟩

/-! ## Predicates of the specification -/

/-- A hexadecimal character, either case. -/
def isHexadecimal (c : Char) : Bool :=
  "0123456789abcdefABCDEF".data.contains c

/-- A syntactically valid object-id hex string, in the words of the
specification: exactly 24 hexadecimal characters. -/
def validObjectIdText (s : String) : Prop :=
  s.length = 24 ∧ ∀ c ∈ s.data, isHexadecimal c = true

/-- The guarantees of the store on the `_id` of its documents: it is a BSON
object id (12 bytes) and no two documents share it. -/
def WellFormed (db : Collection) : Prop :=
  (db.map Doc.id).Nodup ∧ ∀ d ∈ db, d.id.length = 12

/-- Every stored item has a non-empty title. -/
def TitlesNonEmpty (db : Collection) : Prop :=
  ∀ d ∈ db, (unmarshal d).Title ≠ ""

/-- The wire form `fetchTodos` builds for a stored `todoModel` (lines 81-86). -/
def toWire (t : todoModel) : todo :=
  { ID := t.ID.Hex, Title := t.Title, Completed := t.Completed, CreatedAt := t.CreatedAt }

instance (s : String) : Decidable (validObjectIdText s) := by
  unfold validObjectIdText; infer_instance

instance (db : Collection) : Decidable (WellFormed db) := by
  unfold WellFormed; infer_instance

instance (db : Collection) : Decidable (TitlesNonEmpty db) := by
  unfold TitlesNonEmpty; infer_instance

/-- A status code of the success class 2xx. -/
def is2xx (status : Nat) : Prop :=
  200 ≤ status ∧ status < 300

instance (status : Nat) : Decidable (is2xx status) := by
  unfold is2xx; infer_instance

/-- An instant rounded down to a whole millisecond. -/
def floorMs (t : Time) : Time :=
  t / 1000000 * 1000000

/-! ## Hexadecimal encoding of identifiers -/

theorem fromHexChar_hexDigit (n : Nat) (h : n < 16) : fromHexChar (hexDigit n) = some n := by
  interval_cases n <;> rfl

theorem isSpace_hexDigit (n : Nat) (h : n < 16) : isSpace (hexDigit n) = false := by
  interval_cases n <;> rfl

theorem utf8Size_of_toNat_le (c : Char) (h : c.toNat ≤ 127) : c.utf8Size = 1 := by
  unfold Char.utf8Size
  have : c.val ≤ UInt32.ofNatCore 127 (by decide) := by
    rw [UInt32.le_def]
    simpa [Char.toNat, UInt32.toNat] using h
  rw [if_pos this]

theorem fromHexChar_toNat_le (c : Char) (h : (fromHexChar c).isSome) : c.toNat ≤ 127 := by
  unfold fromHexChar at h
  by_contra hc
  simp only [] at h
  split_ifs at h <;> first | omega | simp at h

theorem byte_split (b : Byte) : (Fin.ofNat (b.val / 16 * 16 + b.val % 16) : Byte) = b := by
  apply Fin.ext
  have := b.isLt
  simp [Fin.ofNat]
  omega

theorem decodeChars_encode (bs : List Byte) :
    decodeChars (bs.flatMap (fun b => [hexDigit (b.val / 16), hexDigit (b.val % 16)]))
      = some bs := by
  induction bs with
  | nil => rfl
  | cons b bs ih =>
    have h1 : b.val / 16 < 16 := by have := b.isLt; omega
    have h2 : b.val % 16 < 16 := by omega
    have e : (b :: bs).flatMap (fun b => [hexDigit (b.val / 16), hexDigit (b.val % 16)])
        = hexDigit (b.val / 16) :: hexDigit (b.val % 16)
          :: bs.flatMap (fun b => [hexDigit (b.val / 16), hexDigit (b.val % 16)]) := by
      simp [List.flatMap_cons]
    rw [e]
    simp only [decodeChars, fromHexChar_hexDigit _ h1, fromHexChar_hexDigit _ h2, ih, byte_split]

theorem utf8ByteSize_go_eq_length (l : List Char) (h : ∀ c ∈ l, c.utf8Size = 1) :
    String.utf8ByteSize.go l = l.length := by
  induction l with
  | nil => rfl
  | cons c cs ih =>
    simp only [String.utf8ByteSize.go, List.length_cons]
    rw [ih (fun c hc => h c (List.mem_cons_of_mem _ hc)), h c (List.mem_cons_self _ _)]

theorem fromHexChar_isSome_iff (c : Char) : (fromHexChar c).isSome = isHexadecimal c := by
  by_cases h : isHexadecimal c = true
  · rw [h]
    simp only [isHexadecimal, List.contains_eq_any_beq, List.any_eq_true, beq_iff_eq] at h
    obtain ⟨x, hx, rfl⟩ := h
    simp only [List.mem_cons, List.mem_singleton, List.not_mem_nil, or_false] at hx
    rcases hx with rfl | rfl | rfl | rfl | rfl | rfl | rfl | rfl | rfl | rfl | rfl | rfl | rfl |
      rfl | rfl | rfl | rfl | rfl | rfl | rfl | rfl | rfl <;> rfl
  · have h' : isHexadecimal c = false := by simpa using h
    rw [h']
    by_contra hs
    have hs' : (fromHexChar c).isSome = true := by
      cases hq : (fromHexChar c).isSome
      · exact absurd hq hs
      · rfl
    have hle := fromHexChar_toNat_le c hs'
    have hc : c = Char.ofNat c.toNat := (Char.ofNat_toNat c).symm
    unfold fromHexChar at hs'
    simp only [] at hs'
    have hr : (48 ≤ c.toNat ∧ c.toNat ≤ 57) ∨ (97 ≤ c.toNat ∧ c.toNat ≤ 102) ∨
        (65 ≤ c.toNat ∧ c.toNat ≤ 70) := by
      by_contra hn
      simp only [not_or] at hn
      rw [if_neg hn.1, if_neg hn.2.1, if_neg hn.2.2] at hs'
      simp at hs'
    revert h' hc
    generalize c.toNat = n at hr hle
    intro h' hc
    subst hc
    rcases hr with ⟨h1, h2⟩ | ⟨h1, h2⟩ | ⟨h1, h2⟩ <;> interval_cases n <;> revert h' <;> decide

theorem decodeChars_isSome : ∀ (l : List Char),
    (decodeChars l).isSome = true ↔ (l.length % 2 = 0 ∧ ∀ c ∈ l, (fromHexChar c).isSome = true)
  | [] => by simp [decodeChars]
  | [a] => by simp [decodeChars]
  | a :: b :: rest => by
    have ih := decodeChars_isSome rest
    simp only [decodeChars, List.length_cons, List.mem_cons, forall_eq_or_imp]
    cases ha : fromHexChar a <;> cases hb : fromHexChar b <;>
      cases hr : decodeChars rest <;> simp [hr] at ih ⊢
    · intro h
      exact ih (by omega)
    · exact ⟨by omega, ih.2⟩

theorem decodeChars_length : ∀ (l : List Char) (bs : List Byte),
    decodeChars l = some bs → 2 * bs.length = l.length
  | [], bs, h => by
    simp only [decodeChars, Option.some.injEq] at h
    subst h; rfl
  | [a], bs, h => by simp [decodeChars] at h
  | a :: b :: rest, bs, h => by
    simp only [decodeChars] at h
    cases ha : fromHexChar a <;> cases hb : fromHexChar b <;>
      cases hr : decodeChars rest <;> simp [ha, hb, hr] at h
    have ih := decodeChars_length rest _ hr
    subst h
    simp only [List.length_cons]
    omega

/-- The code's test `bson.IsObjectIdHex` accepts exactly the strings of 24
hexadecimal characters. -/
theorem IsObjectIdHex_iff (s : String) : IsObjectIdHex s = true ↔ validObjectIdText s := by
  unfold IsObjectIdHex validObjectIdText DecodeString
  constructor
  · intro h
    split_ifs at h with hlen
    have hd := (decodeChars_isSome s.data).1 h
    have hall : ∀ c ∈ s.data, c.utf8Size = 1 := fun c hc =>
      utf8Size_of_toNat_le c (fromHexChar_toNat_le c (hd.2 c hc))
    have hsz : s.utf8ByteSize = s.data.length := utf8ByteSize_go_eq_length s.data hall
    refine ⟨?_, fun c hc => ?_⟩
    · rw [String.length, ← hsz]; omega
    · rw [← fromHexChar_isSome_iff]; exact hd.2 c hc
  · rintro ⟨hlen, hall⟩
    have hsome : ∀ c ∈ s.data, (fromHexChar c).isSome = true := fun c hc => by
      rw [fromHexChar_isSome_iff]; exact hall c hc
    have hsz : s.utf8ByteSize = s.data.length :=
      utf8ByteSize_go_eq_length s.data
        (fun c hc => utf8Size_of_toNat_le c (fromHexChar_toNat_le c (hsome c hc)))
    have hl : s.data.length = 24 := hlen
    rw [if_neg (by omega)]
    exact (decodeChars_isSome s.data).2 ⟨by omega, hsome⟩

/-- After the guard `bson.IsObjectIdHex(id)`, `bson.ObjectIdHex(id)` does not
panic and returns 12 bytes. -/
theorem ObjectIdHex_of_IsObjectIdHex (s : String) (h : IsObjectIdHex s = true) :
    ∃ oid, ObjectIdHex s = some oid ∧ oid.length = 12 := by
  have hv := (IsObjectIdHex_iff s).1 h
  unfold IsObjectIdHex at h
  split_ifs at h with hlen
  cases hd : DecodeString s with
  | none => simp [hd] at h
  | some d =>
    have hl := decodeChars_length s.data d hd
    have h24 : s.data.length = 24 := hv.1
    have h12 : d.length = 12 := by omega
    exact ⟨d, by simp [ObjectIdHex, hd, h12], h12⟩

theorem mem_hexChars (bs : List Byte) (c : Char)
    (hc : c ∈ bs.flatMap (fun b => [hexDigit (b.val / 16), hexDigit (b.val % 16)])) :
    ∃ n, n < 16 ∧ c = hexDigit n := by
  simp only [List.mem_flatMap, List.mem_cons, List.mem_singleton, List.not_mem_nil,
    or_false] at hc
  obtain ⟨b, _, h | h⟩ := hc
  · exact ⟨b.val / 16, by have := b.isLt; omega, h⟩
  · exact ⟨b.val % 16, by omega, h⟩

theorem length_hexChars (bs : List Byte) :
    (bs.flatMap (fun b => [hexDigit (b.val / 16), hexDigit (b.val % 16)])).length
      = 2 * bs.length := by
  induction bs with
  | nil => rfl
  | cons b bs ih =>
    simp only [List.flatMap_cons, List.length_append, List.length_cons, List.length_nil, ih]
    omega

theorem DecodeString_Hex (id : ObjectId) : DecodeString id.Hex = some id :=
  decodeChars_encode id

/-- The hex encoding determines the identifier. -/
theorem Hex_injective (a b : ObjectId) (h : a.Hex = b.Hex) : a = b := by
  have ha := DecodeString_Hex a
  rw [h, DecodeString_Hex b] at ha
  exact (Option.some.inj ha).symm

theorem validObjectIdText_Hex (id : ObjectId) (h : id.length = 12) :
    validObjectIdText id.Hex := by
  refine ⟨?_, fun c hc => ?_⟩
  · show (id.flatMap _).length = 24
    rw [length_hexChars, h]
  · obtain ⟨n, hn, rfl⟩ := mem_hexChars id c hc
    rw [← fromHexChar_isSome_iff, fromHexChar_hexDigit n hn]
    rfl

theorem dropWhile_of_all_false {α : Type} (p : α → Bool) (l : List α)
    (h : ∀ x ∈ l, p x = false) : l.dropWhile p = l := by
  cases l with
  | nil => rfl
  | cons x xs => simp [List.dropWhile, h x (List.mem_cons_self _ _)]

theorem rdropWhile_of_all_false {α : Type} (p : α → Bool) (l : List α)
    (h : ∀ x ∈ l, p x = false) : l.rdropWhile p = l := by
  unfold List.rdropWhile
  rw [dropWhile_of_all_false p l.reverse (fun x hx => h x (List.mem_reverse.1 hx)),
    List.reverse_reverse]

/-- The hex encoding has no white space for `strings.TrimSpace` to remove. -/
theorem TrimSpace_Hex (id : ObjectId) : TrimSpace id.Hex = id.Hex := by
  have hns : ∀ c ∈ id.Hex.data, isSpace c = false := fun c hc => by
    obtain ⟨n, hn, rfl⟩ := mem_hexChars id c hc
    exact isSpace_hexDigit n hn
  unfold TrimSpace
  rw [dropWhile_of_all_false isSpace _ hns, rdropWhile_of_all_false isSpace _ hns]

/-- The id string reported for a stored identifier passes the handlers' guard and
decodes back to the identifier. -/
theorem ObjectIdHex_Hex (id : ObjectId) (h : id.length = 12) :
    IsObjectIdHex id.Hex = true ∧ ObjectIdHex id.Hex = some id := by
  refine ⟨(IsObjectIdHex_iff _).2 (validObjectIdText_Hex id h), ?_⟩
  simp [ObjectIdHex, DecodeString_Hex, h]

theorem NewObjectId_length (env : Env) : (NewObjectId env).length = 12 := by
  simp [NewObjectId]

/-! ## BSON encoding -/

theorem unmarshal_id (d : Doc) : (unmarshal d).ID = d.id := by
  unfold unmarshal
  have : ∀ (fs : List (String × BsonValue)) (tm : todoModel),
      (fs.foldl setField tm).ID = tm.ID := by
    intro fs
    induction fs with
    | nil => intro tm; rfl
    | cons kv fs ih =>
      intro tm
      rw [List.foldl_cons, ih]
      unfold setField
      split_ifs <;> first | rfl | (split <;> rfl)
  rw [this]

/-- A time written to the store and read back is rounded down to the millisecond. -/
theorem bsonToTime_timeToBson (t : Time) : bsonToTime (timeToBson t) = floorMs t := by
  have key : ∀ x : Int,
      (x / 1000000000 * 1000 + x % 1000000000 / 1000000) * 1000000 = x / 1000000 * 1000000 := by
    intro x
    omega
  exact key t

/-- The item read back from the document `createTodo` stores. -/
theorem unmarshal_marshal (tm : todoModel) :
    unmarshal (marshal tm) = { tm with CreatedAt := floorMs tm.CreatedAt } := by
  simp [unmarshal, marshal, setField, bsonToTime_timeToBson]

/-- The item read back from the document `updateTodo` stores: the element
`Completed` matches no field of `todoModel`, and there is no `createAt`. -/
theorem unmarshal_update (id : ObjectId) (title : String) (completed : Bool) :
    unmarshal { id := id, fields := [("title", .str title), ("Completed", .bool completed)] }
      = { ID := id, Title := title, Completed := false, CreatedAt := zeroTime } := by
  simp [unmarshal, setField]

/-! ## The collection operations -/

theorem removeFirst_none (id : ObjectId) (db : Collection) (h : ∀ d ∈ db, d.id ≠ id) :
    removeFirst id db = none := by
  induction db with
  | nil => rfl
  | cons d ds ih =>
    have hd : d.id ≠ id := h d (List.mem_cons_self _ _)
    simp only [removeFirst, if_neg hd, ih (fun x hx => h x (List.mem_cons_of_mem _ hx))]

theorem removeFirst_of_mem (id : ObjectId) (db : Collection) (h : ∃ d ∈ db, d.id = id) :
    ∃ db', removeFirst id db = some db' := by
  induction db with
  | nil => obtain ⟨d, hd, _⟩ := h; cases hd
  | cons d ds ih =>
    by_cases hd : d.id = id
    · exact ⟨ds, by simp only [removeFirst, if_pos hd]⟩
    · obtain ⟨x, hx, hxid⟩ := h
      have hx' : x ∈ ds := by
        rcases List.mem_cons.1 hx with rfl | hx'
        · exact absurd hxid hd
        · exact hx'
      obtain ⟨ds', hds'⟩ := ih ⟨x, hx', hxid⟩
      exact ⟨d :: ds', by simp only [removeFirst, if_neg hd, hds']⟩

theorem removeFirst_mem (id : ObjectId) (db db' : Collection)
    (h : removeFirst id db = some db') : ∀ x ∈ db', x ∈ db := by
  induction db generalizing db' with
  | nil => simp [removeFirst] at h
  | cons d ds ih =>
    by_cases hd : d.id = id
    · simp only [removeFirst, if_pos hd, Option.some.injEq] at h
      subst h
      exact fun x hx => List.mem_cons_of_mem _ hx
    · simp only [removeFirst, if_neg hd] at h
      cases hr : removeFirst id ds with
      | none => simp [hr] at h
      | some ds' =>
        simp only [hr, Option.some.injEq] at h
        subst h
        intro x hx
        rcases List.mem_cons.1 hx with rfl | hx'
        · exact List.mem_cons_self _ _
        · exact List.mem_cons_of_mem _ (ih ds' hr x hx')

theorem removeFirst_absent (id : ObjectId) (db db' : Collection)
    (hn : (db.map Doc.id).Nodup) (h : removeFirst id db = some db') :
    ∀ x ∈ db', x.id ≠ id := by
  induction db generalizing db' with
  | nil => simp [removeFirst] at h
  | cons d ds ih =>
    rw [List.map_cons, List.nodup_cons] at hn
    by_cases hd : d.id = id
    · simp only [removeFirst, if_pos hd, Option.some.injEq] at h
      subst h
      intro x hx hxid
      exact hn.1 (hd ▸ hxid ▸ List.mem_map_of_mem Doc.id hx)
    · simp only [removeFirst, if_neg hd] at h
      cases hr : removeFirst id ds with
      | none => simp [hr] at h
      | some ds' =>
        simp only [hr, Option.some.injEq] at h
        subst h
        intro x hx
        rcases List.mem_cons.1 hx with rfl | hx'
        · exact hd
        · exact ih ds' hn.2 hr x hx'

theorem replaceFirst_mem (id : ObjectId) (fields : List (String × BsonValue))
    (db db' : Collection) (h : replaceFirst id fields db = some db') :
    ∀ x ∈ db', x ∈ db ∨ x = { id := id, fields := fields } := by
  induction db generalizing db' with
  | nil => simp [replaceFirst] at h
  | cons d ds ih =>
    by_cases hd : d.id = id
    · simp only [replaceFirst, if_pos hd, Option.some.injEq] at h
      subst h
      intro x hx
      rcases List.mem_cons.1 hx with rfl | hx'
      · exact Or.inr (by rw [hd])
      · exact Or.inl (List.mem_cons_of_mem _ hx')
    · simp only [replaceFirst, if_neg hd] at h
      cases hr : replaceFirst id fields ds with
      | none => simp [hr] at h
      | some ds' =>
        simp only [hr, Option.some.injEq] at h
        subst h
        intro x hx
        rcases List.mem_cons.1 hx with rfl | hx'
        · exact Or.inl (List.mem_cons_self _ _)
        · rcases ih ds' hr x hx' with h1 | h2
          · exact Or.inl (List.mem_cons_of_mem _ h1)
          · exact Or.inr h2

/-! ## The list handler -/

theorem foldl_append_singleton {α β : Type} (g : α → β) (l : List α) (init : List β) :
    l.foldl (fun acc t => acc ++ [g t]) init = init ++ l.map g := by
  induction l generalizing init with
  | nil => simp
  | cons x xs ih => simp [List.foldl_cons, ih]

/-- When the read succeeds, `fetchTodos` answers 200 with the wire form of every
stored item, in order, and leaves the collection alone. -/
theorem fetchTodos_ok (env : Env) (r : Request) (db : Collection)
    (h : env.storeFault = none) :
    fetchTodos env r db =
      ⟨.wrote ⟨StatusOK, .obj [("data", .todos (db.map (fun d => toWire (unmarshal d))))]⟩,
       [.findAll], db⟩ := by
  unfold fetchTodos Collection.All
  rw [h]
  simp only [Result.mk.injEq, Outcome.wrote.injEq, Response.mk.injEq, Body.obj.injEq,
    true_and, and_true]
  have := foldl_append_singleton toWire (db.map unmarshal) []
  simp only [toWire, List.nil_append, List.map_map] at this
  simpa [toWire] using this

theorem fetchTodos_store (env : Env) (r : Request) (db : Collection) :
    (fetchTodos env r db).store = db := by
  unfold fetchTodos
  split <;> rfl

/-- Whatever the store does, the items `fetchTodos` reports are wire forms of
stored documents. -/
theorem fetchTodos_data_mem (env : Env) (r : Request) (db : Collection) (x : todo)
    (hx : x ∈ (fetchTodos env r db).out.data) : ∃ d ∈ db, x = toWire (unmarshal d) := by
  cases hf : env.storeFault with
  | some e =>
    simp [fetchTodos, Collection.All, hf, Outcome.data] at hx
  | none =>
    rw [fetchTodos_ok env r db hf] at hx
    simp only [Outcome.data, List.mem_map] at hx
    obtain ⟨d, hd, rfl⟩ := hx
    exact ⟨d, hd, rfl⟩

/-! ## Rejected requests -/

theorem updateTodo_invalid_id (env : Env) (r : Request) (db : Collection)
    (h : IsObjectIdHex (TrimSpace r.idParam) = false) :
    updateTodo env r db =
      ⟨.wrote ⟨StatusBadRequest, .obj [("message", .str "Invalid id")]⟩, [], db⟩ := by
  simp [updateTodo, h]

theorem deleteTodo_invalid_id (env : Env) (r : Request) (db : Collection)
    (h : IsObjectIdHex (TrimSpace r.idParam) = false) :
    deleteTodo env r db =
      ⟨.wrote ⟨StatusBadRequest, .obj [("message", .str "Invalid ID")]⟩, [], db⟩ := by
  simp [deleteTodo, h]

theorem IsObjectIdHex_false_of_not_valid (s : String) (h : ¬ validObjectIdText s) :
    IsObjectIdHex s = false := by
  cases hv : IsObjectIdHex s
  · rfl
  · exact absurd ((IsObjectIdHex_iff s).1 hv) h

/-- C3: a create request whose body parses to an empty title is answered 400
and issues no store call: the collection is the same afterwards, and so is its
item count. -/
theorem C3_createTodo_empty_title_rejected (env : Env) (r : Request) (db : Collection)
    (t : todo) (hb : r.body = .ok t) (ht : t.Title = "") :
    (createTodo env r db).out.status = some 400 ∧
    (createTodo env r db).calls = [] ∧
    (createTodo env r db).store = db ∧
    (createTodo env r db).store.length = db.length := by
  simp [createTodo, hb, ht, Outcome.status, StatusBadRequest]

theorem C3_createTodo_empty_title_rejected_witness :
    let r : Request := ⟨"", .ok ⟨"abc", "", true, 7⟩⟩
    let db : Collection := [⟨[1], [("title", .str "x")]⟩]
    r.body = .ok ⟨"abc", "", true, 7⟩ ∧ (⟨"abc", "", true, 7⟩ : todo).Title = "" ∧
    (createTodo ⟨5, 9, none⟩ r db).out.status = some 400 ∧
    (createTodo ⟨5, 9, none⟩ r db).calls = [] ∧
    (createTodo ⟨5, 9, none⟩ r db).store = db ∧
    (createTodo ⟨5, 9, none⟩ r db).store.length = db.length :=
  ⟨rfl, rfl, C3_createTodo_empty_title_rejected ⟨5, 9, none⟩ _ _ ⟨"abc", "", true, 7⟩ rfl rfl⟩

/-- C4: when the path identifier, with surrounding white space trimmed, is not
a string of exactly 24 hexadecimal characters, `updateTodo` and `deleteTodo`
both answer 400, issue no store call and leave the collection unchanged, for
every body, environment and collection. -/
theorem C4_invalid_id_rejected (env : Env) (r : Request) (db : Collection)
    (h : ¬ validObjectIdText (TrimSpace r.idParam)) :
    ((updateTodo env r db).out.status = some 400 ∧ (updateTodo env r db).calls = [] ∧
      (updateTodo env r db).store = db) ∧
    ((deleteTodo env r db).out.status = some 400 ∧ (deleteTodo env r db).calls = [] ∧
      (deleteTodo env r db).store = db) := by
  have hf := IsObjectIdHex_false_of_not_valid _ h
  rw [updateTodo_invalid_id env r db hf, deleteTodo_invalid_id env r db hf]
  simp [Outcome.status, StatusBadRequest]

theorem C4_invalid_id_rejected_witness :
    let r : Request := ⟨" 00000000000000000000000g ", .ok ⟨"", "t", true, 0⟩⟩
    let db : Collection := [⟨[1], [("title", .str "x")]⟩]
    ¬ validObjectIdText (TrimSpace r.idParam) ∧
    ((updateTodo ⟨5, 9, none⟩ r db).out.status = some 400 ∧
      (updateTodo ⟨5, 9, none⟩ r db).calls = [] ∧ (updateTodo ⟨5, 9, none⟩ r db).store = db) ∧
    ((deleteTodo ⟨5, 9, none⟩ r db).out.status = some 400 ∧
      (deleteTodo ⟨5, 9, none⟩ r db).calls = [] ∧ (deleteTodo ⟨5, 9, none⟩ r db).store = db) :=
  ⟨by decide, C4_invalid_id_rejected ⟨5, 9, none⟩ _ _ (by decide)⟩

/-- C7: when the store read succeeds, `fetchTodos` answers 200 with a `data`
sequence as long as the collection whose i-th element carries the title,
completed flag and created-at of the i-th stored item and the hex encoding of
its identifier; the collection is not modified. -/
theorem C7_fetchTodos_lists_store (env : Env) (r : Request) (db : Collection)
    (todos : List todoModel) (h : db.All env.storeFault = .ok todos) :
    (fetchTodos env r db).out.status = some 200 ∧
    todos.length = db.length ∧
    (fetchTodos env r db).out.data.length = db.length ∧
    (∀ i : Nat, (fetchTodos env r db).out.data[i]? =
      todos[i]?.map (fun t => ⟨t.ID.Hex, t.Title, t.Completed, t.CreatedAt⟩)) ∧
    (∀ i : Nat, todos[i]? = db[i]?.map unmarshal) ∧
    (fetchTodos env r db).store = db := by
  have hf : env.storeFault = none := by
    cases hs : env.storeFault with
    | none => rfl
    | some e => simp [Collection.All, hs] at h
  have ht : todos = db.map unmarshal := by
    simp only [Collection.All, hf, Except.ok.injEq] at h
    exact h.symm
  subst ht
  rw [fetchTodos_ok env r db hf]
  refine ⟨rfl, by simp, by simp [Outcome.data], fun i => ?_, fun i => by simp, rfl⟩
  simp only [Outcome.data, toWire, List.getElem?_map, Option.map_map]
  rfl

theorem C7_fetchTodos_lists_store_witness :
    let db : Collection :=
      [⟨[1], [("title", .str "x"), ("completed", .bool true), ("createAt", .datetime 3)]⟩,
       ⟨[2], [("title", .str "y")]⟩]
    let env : Env := ⟨5, 9, none⟩
    let r : Request := ⟨"", .error "EOF"⟩
    db.All env.storeFault = .ok (db.map unmarshal) ∧
    (fetchTodos env r db).out.status = some 200 ∧
    (db.map unmarshal).length = db.length ∧
    (fetchTodos env r db).out.data.length = db.length ∧
    (∀ i : Nat, (fetchTodos env r db).out.data[i]? =
      (db.map unmarshal)[i]?.map (fun t => ⟨t.ID.Hex, t.Title, t.Completed, t.CreatedAt⟩)) ∧
    (∀ i : Nat, (db.map unmarshal)[i]? = db[i]?.map unmarshal) ∧
    (fetchTodos env r db).store = db :=
  ⟨rfl, C7_fetchTodos_lists_store ⟨5, 9, none⟩ _ _ _ rfl⟩

/-! ## Create -/

theorem Insert_ok (db db' : Collection) (fault : Option String) (doc : Doc)
    (h : db.Insert fault doc = .ok db') :
    fault = none ∧ (∀ d ∈ db, d.id ≠ doc.id) ∧ db' = db ++ [doc] := by
  unfold Collection.Insert at h
  cases fault with
  | some e => simp at h
  | none =>
    simp only at h
    split_ifs at h with hany
    simp only [Except.ok.injEq] at h
    refine ⟨rfl, fun d hd hid => hany ?_, h.symm⟩
    simp only [List.any_eq_true, decide_eq_true_eq]
    exact ⟨d, hd, hid⟩

/-- The insert of a document succeeds exactly when the driver serves the call
and no stored document has its `_id`. -/
theorem Insert_ok_iff (db : Collection) (fault : Option String) (doc : Doc) :
    db.Insert fault doc = .ok (db ++ [doc]) ↔ fault = none ∧ ∀ d ∈ db, d.id ≠ doc.id := by
  constructor
  · intro h
    obtain ⟨h1, h2, _⟩ := Insert_ok db _ fault doc h
    exact ⟨h1, h2⟩
  · rintro ⟨h1, h2⟩
    subst h1
    have hany : db.any (fun d => decide (d.id = doc.id)) = false := by
      rw [List.any_eq_false]
      intro d hd
      simpa using h2 d hd
    simp only [Collection.Insert, hany]
    rfl

/-- For a body that parses with a non-empty title, `createTodo` issues exactly
one store call: the insert of the document built on lines 111-116. -/
theorem createTodo_calls (env : Env) (r : Request) (db : Collection) (t : todo)
    (hb : r.body = .ok t) (ht : t.Title ≠ "") :
    (createTodo env r db).calls =
      [.insert (marshal ⟨NewObjectId env, t.Title, false, env.now⟩)] := by
  simp only [createTodo, hb, if_neg ht]
  split <;> rfl

/-- C8: for a body that parses with a non-empty title, `createTodo` issues the
insert of one document; when that insert succeeds (the driver serves it and the
identifier drawn is not in the collection), `createTodo` answers 201 with
`Todo ID` the hex encoding of the inserted item's identifier, and the collection
afterwards is the collection before plus that one item, which carries the
identifier drawn by the server, the given title and completed=false; the id,
completed and createAt of the body play no part. -/
theorem C8_createTodo_inserts_one_item (env : Env) (r : Request) (db : Collection)
    (t : todo)
    (hb : r.body = .ok t) (ht : t.Title ≠ "")
    (hup : env.storeFault = none) (hfresh : ∀ d ∈ db, d.id ≠ NewObjectId env) :
    ∃ doc : Doc,
      (createTodo env r db).calls = [.insert doc] ∧
      db.Insert env.storeFault doc = .ok (db ++ [doc]) ∧
      (createTodo env r db).out =
        .wrote ⟨201, .obj [("message", .str "Todo Created Successfully"),
                           ("Todo ID", .str doc.id.Hex)]⟩ ∧
      (createTodo env r db).store = db ++ [doc] ∧
      (∀ d ∈ db, d.id ≠ doc.id) ∧
      doc.id = NewObjectId env ∧ doc.id.length = 12 ∧
      (unmarshal doc).ID = doc.id ∧
      (unmarshal doc).Title = t.Title ∧
      (unmarshal doc).Completed = false ∧
      (∀ (cid : String) (cc : Bool) (cat : Time),
        createTodo env ⟨r.idParam, .ok ⟨cid, t.Title, cc, cat⟩⟩ db = createTodo env r db) := by
  have hins : db.Insert env.storeFault (marshal ⟨NewObjectId env, t.Title, false, env.now⟩)
      = .ok (db ++ [marshal ⟨NewObjectId env, t.Title, false, env.now⟩]) :=
    (Insert_ok_iff db _ _).2 ⟨hup, hfresh⟩
  refine ⟨marshal ⟨NewObjectId env, t.Title, false, env.now⟩,
    createTodo_calls env r db t hb ht, hins, ?_, ?_, hfresh, rfl, NewObjectId_length env,
    unmarshal_id _, ?_, ?_, ?_⟩
  · simp only [createTodo, hb, if_neg ht, hins]
    rfl
  · simp only [createTodo, hb, if_neg ht, hins]
  · rw [unmarshal_marshal]
  · rw [unmarshal_marshal]
  · intro cid cc cat
    simp [createTodo, hb]

theorem C8_createTodo_inserts_one_item_witness :
    let env : Env := ⟨258, 1500000, none⟩
    let r : Request := ⟨"", .ok ⟨"client-id", "buy milk", true, 42⟩⟩
    let db : Collection := [⟨NewObjectId ⟨1, 0, none⟩, [("title", .str "x")]⟩]
    r.body = .ok ⟨"client-id", "buy milk", true, 42⟩ ∧
    (⟨"client-id", "buy milk", true, 42⟩ : todo).Title ≠ "" ∧
    env.storeFault = none ∧ (∀ d ∈ db, d.id ≠ NewObjectId env) ∧
    ∃ doc : Doc,
      (createTodo env r db).calls = [.insert doc] ∧
      db.Insert env.storeFault doc = .ok (db ++ [doc]) ∧
      (createTodo env r db).out =
        .wrote ⟨201, .obj [("message", .str "Todo Created Successfully"),
                           ("Todo ID", .str doc.id.Hex)]⟩ ∧
      (createTodo env r db).store = db ++ [doc] ∧
      (∀ d ∈ db, d.id ≠ doc.id) ∧
      doc.id = NewObjectId env ∧ doc.id.length = 12 ∧
      (unmarshal doc).ID = doc.id ∧
      (unmarshal doc).Title = "buy milk" ∧
      (unmarshal doc).Completed = false ∧
      (∀ (cid : String) (cc : Bool) (cat : Time),
        createTodo env ⟨r.idParam, .ok ⟨cid, "buy milk", cc, cat⟩⟩ db = createTodo env r db) :=
  ⟨rfl, by decide, rfl, by decide,
   C8_createTodo_inserts_one_item ⟨258, 1500000, none⟩
    ⟨"", .ok ⟨"client-id", "buy milk", true, 42⟩⟩
    [⟨NewObjectId ⟨1, 0, none⟩, [("title", .str "x")]⟩]
    ⟨"client-id", "buy milk", true, 42⟩ rfl (by decide) rfl (by decide)⟩

theorem floorMs_mono (a b : Time) (h : a ≤ b) : floorMs a ≤ floorMs b := by
  have key : ∀ x y : Int, x ≤ y → x / 1000000 * 1000000 ≤ y / 1000000 * 1000000 := by
    intro x y hxy
    omega
  exact key a b h

/-- C1 (amended): for a body that parses with a non-empty title T, on a
collection with no item titled T, when the insert and the following read
succeed (the driver serves both calls and the identifier drawn is not in the
collection), `createTodo` answers 201 and the list returned by `fetchTodos`
afterwards has exactly one item titled T; it has completed=false, whatever the
body carried, and its created-at is the instant of `time.Now()` rounded down to
the millisecond, so it is at least the time of the create call rounded down to
the millisecond. -/
theorem C1_create_then_list (env env' : Env) (r r' : Request) (db : Collection)
    (t : todo) (t0 : Time)
    (hb : r.body = .ok t) (ht : t.Title ≠ "")
    (hnone : ∀ d ∈ db, (unmarshal d).Title ≠ t.Title)
    (hclock : t0 ≤ env.now)
    (hup : env.storeFault = none) (hfresh : ∀ d ∈ db, d.id ≠ NewObjectId env)
    (hread : env'.storeFault = none) :
    (createTodo env r db).out.status = some 201 ∧
    (fetchTodos env' r' (createTodo env r db).store).out.status = some 200 ∧
    ∃ item : todo,
      (fetchTodos env' r' (createTodo env r db).store).out.data.filter
        (fun x => decide (x.Title = t.Title)) = [item] ∧
      item.Title = t.Title ∧ item.Completed = false ∧
      item.CreatedAt = floorMs env.now ∧ floorMs t0 ≤ item.CreatedAt := by
  have hins : db.Insert env.storeFault (marshal ⟨NewObjectId env, t.Title, false, env.now⟩)
      = .ok (db ++ [marshal ⟨NewObjectId env, t.Title, false, env.now⟩]) :=
    (Insert_ok_iff db _ _).2 ⟨hup, hfresh⟩
  have hstore : (createTodo env r db).store
      = db ++ [marshal ⟨NewObjectId env, t.Title, false, env.now⟩] := by
    simp only [createTodo, hb, if_neg ht, hins]
  have hstatus : (createTodo env r db).out.status = some 201 := by
    simp only [createTodo, hb, if_neg ht, hins]
    rfl
  have hu : unmarshal (marshal ⟨NewObjectId env, t.Title, false, env.now⟩)
      = ⟨NewObjectId env, t.Title, false, floorMs env.now⟩ := by
    rw [unmarshal_marshal]
  refine ⟨hstatus, ?_, toWire ⟨NewObjectId env, t.Title, false, floorMs env.now⟩,
    ?_, rfl, rfl, rfl, ?_⟩
  · rw [fetchTodos_ok env' r' _ hread]
    rfl
  · rw [hstore, fetchTodos_ok env' r' _ hread]
    simp only [Outcome.data, List.map_append, List.map_cons, List.map_nil, List.filter_append]
    have h1 : (db.map (fun d => toWire (unmarshal d))).filter
        (fun x => decide (x.Title = t.Title)) = [] := by
      rw [List.filter_eq_nil_iff]
      intro x hx
      obtain ⟨d, hd, rfl⟩ := List.mem_map.1 hx
      simpa [toWire] using hnone d hd
    rw [h1, List.nil_append, hu]
    simp [List.filter, toWire]
  · exact floorMs_mono t0 env.now hclock

theorem C1_create_then_list_witness :
    let env : Env := ⟨258, 1500000, none⟩
    let r : Request := ⟨"", .ok ⟨"client-id", "buy milk", true, 42⟩⟩
    let db : Collection := [⟨NewObjectId ⟨1, 0, none⟩, [("title", .str "x")]⟩]
    r.body = .ok ⟨"client-id", "buy milk", true, 42⟩ ∧
    (⟨"client-id", "buy milk", true, 42⟩ : todo).Title ≠ "" ∧
    (∀ d ∈ db, (unmarshal d).Title ≠ "buy milk") ∧
    (1200000 : Time) ≤ env.now ∧
    env.storeFault = none ∧ (∀ d ∈ db, d.id ≠ NewObjectId env) ∧
    (createTodo env r db).out.status = some 201 ∧
    (fetchTodos env r (createTodo env r db).store).out.status = some 200 ∧
    ∃ item : todo,
      (fetchTodos env r (createTodo env r db).store).out.data.filter
        (fun x => decide (x.Title = "buy milk")) = [item] ∧
      item.Title = "buy milk" ∧ item.Completed = false ∧
      item.CreatedAt = floorMs env.now ∧ floorMs 1200000 ≤ item.CreatedAt :=
  ⟨rfl, by decide, by decide, by decide, rfl, by decide,
   C1_create_then_list ⟨258, 1500000, none⟩ ⟨258, 1500000, none⟩
    ⟨"", .ok ⟨"client-id", "buy milk", true, 42⟩⟩ ⟨"", .ok ⟨"client-id", "buy milk", true, 42⟩⟩
    [⟨NewObjectId ⟨1, 0, none⟩, [("title", .str "x")]⟩]
    ⟨"client-id", "buy milk", true, 42⟩ 1200000 rfl (by decide) (by decide) (by decide)
    rfl (by decide) rfl⟩

/-- C1 as stated fails: the clock reads 1.5 ms when `createTodo` draws
`time.Now()`, the create call began at 1.2 ms, the insert and the read succeed,
and the only item listed has created-at 1 ms, before the create call. -/
theorem C1_created_at_precedes_call :
    let env : Env := ⟨1, 1500000, none⟩
    let r : Request := ⟨"", .ok ⟨"", "a", false, 0⟩⟩
    let callTime : Time := 1200000
    callTime ≤ env.now ∧
    (createTodo env r []).out.status = some 201 ∧
    (fetchTodos env r (createTodo env r []).store).out =
      .wrote ⟨200, .obj [("data", .todos [⟨"000000000000000000000001", "a", false, 1000000⟩])]⟩ ∧
    ¬ (callTime ≤ (1000000 : Time)) := by
  decide

/-! ## Delete -/

theorem IsObjectIdHex_of_ObjectIdHex (s : String) (oid : ObjectId)
    (h : ObjectIdHex s = some oid) : IsObjectIdHex s = true := by
  unfold ObjectIdHex at h
  cases hd : DecodeString s with
  | none => simp [hd] at h
  | some d =>
    simp only [hd] at h
    split_ifs at h with hlen
    have hl := decodeChars_length s.data d hd
    have hsome : (decodeChars s.data).isSome = true := by
      have : decodeChars s.data = some d := hd
      rw [this]; rfl
    have hall := ((decodeChars_isSome s.data).1 hsome).2
    have hsz : s.utf8ByteSize = s.data.length :=
      utf8ByteSize_go_eq_length s.data
        (fun c hc => utf8Size_of_toNat_le c (fromHexChar_toNat_le c (hall c hc)))
    unfold IsObjectIdHex
    have h12 : d.length = 12 := by
      by_contra hne
      exact hlen hne
    rw [if_neg (by omega), hd]
    rfl

theorem deleteTodo_valid (env : Env) (r : Request) (db : Collection) (oid : ObjectId)
    (ho : ObjectIdHex (TrimSpace r.idParam) = some oid) :
    deleteTodo env r db =
      match db.RemoveId env.storeFault oid with
      | .error err =>
        ⟨.wrote ⟨StatusProcessing,
          .obj [("message", .str "Failed to remove todo"), ("error", .err err)]⟩,
         [.removeId oid], db⟩
      | .ok db' =>
        ⟨.wrote ⟨StatusOK, .obj [("message", .str "Todo deleted successfully")]⟩,
         [.removeId oid], db'⟩ := by
  have hv := IsObjectIdHex_of_ObjectIdHex _ oid ho
  simp [deleteTodo, hv, ho]

/-- A served delete of a stored identifier answers 200 and leaves no document
with that identifier. -/
theorem deleteTodo_existing (env : Env) (r : Request) (db : Collection) (d : Doc)
    (hn : (db.map Doc.id).Nodup) (hd : d ∈ db)
    (ho : ObjectIdHex (TrimSpace r.idParam) = some d.id)
    (hup : env.storeFault = none) :
    (deleteTodo env r db).out =
      .wrote ⟨200, .obj [("message", .str "Todo deleted successfully")]⟩ ∧
    (∀ x ∈ (deleteTodo env r db).store, x ∈ db ∧ x.id ≠ d.id) := by
  obtain ⟨db', hdb'⟩ := removeFirst_of_mem d.id db ⟨d, hd, rfl⟩
  rw [deleteTodo_valid env r db d.id ho]
  simp only [Collection.RemoveId, hup, hdb']
  exact ⟨rfl, fun x hx =>
    ⟨removeFirst_mem d.id db db' hdb' x hx, removeFirst_absent d.id db db' hn hdb' x hx⟩⟩

/-- A delete of an identifier that no document carries is answered 102 with
the store's error, and changes nothing. -/
theorem deleteTodo_missing (env : Env) (r : Request) (db : Collection) (oid : ObjectId)
    (ho : ObjectIdHex (TrimSpace r.idParam) = some oid)
    (hmiss : ∀ x ∈ db, x.id ≠ oid) :
    ∃ e, deleteTodo env r db =
      ⟨.wrote ⟨102, .obj [("message", .str "Failed to remove todo"), ("error", .err e)]⟩,
       [.removeId oid], db⟩ := by
  rw [deleteTodo_valid env r db oid ho]
  cases hf : env.storeFault with
  | some e => exact ⟨e, by simp only [Collection.RemoveId]; rfl⟩
  | none =>
    refine ⟨"not found", ?_⟩
    simp only [Collection.RemoveId, removeFirst_none oid db hmiss]
    rfl

/-- C5: for every well-formed collection and every item `fetchTodos` reports
for it, `deleteTodo` called with the reported id string accepts it as a valid
identifier and, when the store serves the remove call, answers 200; no list
returned by `fetchTodos` afterwards has an item with that id. -/
theorem C5_delete_reported_id (env0 env env' : Env) (r0 r r' : Request)
    (db : Collection) (item : todo)
    (hwf : WellFormed db)
    (hitem : item ∈ (fetchTodos env0 r0 db).out.data)
    (hr : r.idParam = item.ID)
    (hup : env.storeFault = none) :
    validObjectIdText (TrimSpace r.idParam) ∧
    IsObjectIdHex (TrimSpace r.idParam) = true ∧
    (deleteTodo env r db).out.status = some 200 ∧
    (∀ x ∈ (fetchTodos env' r' (deleteTodo env r db).store).out.data, x.ID ≠ item.ID) := by
  obtain ⟨d, hd, rfl⟩ := fetchTodos_data_mem env0 r0 db item hitem
  have hid : (toWire (unmarshal d)).ID = d.id.Hex := by
    simp [toWire, unmarshal_id]
  have hlen := hwf.2 d hd
  have htrim : TrimSpace r.idParam = d.id.Hex := by rw [hr, hid, TrimSpace_Hex]
  have ho : ObjectIdHex (TrimSpace r.idParam) = some d.id := by
    rw [htrim]; exact (ObjectIdHex_Hex d.id hlen).2
  obtain ⟨hout, hgone⟩ := deleteTodo_existing env r db d hwf.1 hd ho hup
  refine ⟨?_, ?_, ?_, ?_⟩
  · rw [htrim]; exact validObjectIdText_Hex d.id hlen
  · rw [htrim]; exact (ObjectIdHex_Hex d.id hlen).1
  · rw [hout]; rfl
  · intro x hx hxid
    obtain ⟨d', hd', rfl⟩ := fetchTodos_data_mem env' r' _ x hx
    have h1 : d'.id.Hex = d.id.Hex := by
      have : (toWire (unmarshal d')).ID = d'.id.Hex := by simp [toWire, unmarshal_id]
      rw [← this, hxid, hid]
    exact (hgone d' hd').2 (Hex_injective _ _ h1)

theorem C5_delete_reported_id_witness :
    let env : Env := ⟨5, 9, none⟩
    let db : Collection :=
      [⟨NewObjectId ⟨1, 0, none⟩, [("title", .str "x")]⟩,
       ⟨NewObjectId ⟨2, 0, none⟩, [("title", .str "y")]⟩]
    let item : todo := ⟨"000000000000000000000002", "y", false, zeroTime⟩
    let r : Request := ⟨"000000000000000000000002", .error "EOF"⟩
    WellFormed db ∧ item ∈ (fetchTodos env r db).out.data ∧
    validObjectIdText (TrimSpace r.idParam) ∧
    IsObjectIdHex (TrimSpace r.idParam) = true ∧
    (deleteTodo env r db).out.status = some 200 ∧
    (∀ x ∈ (fetchTodos env r (deleteTodo env r db).store).out.data, x.ID ≠ item.ID) :=
  ⟨by decide, by decide,
   C5_delete_reported_id ⟨5, 9, none⟩ ⟨5, 9, none⟩ ⟨5, 9, none⟩
    ⟨"000000000000000000000002", .error "EOF"⟩ ⟨"000000000000000000000002", .error "EOF"⟩
    ⟨"000000000000000000000002", .error "EOF"⟩
    [⟨NewObjectId ⟨1, 0, none⟩, [("title", .str "x")]⟩,
     ⟨NewObjectId ⟨2, 0, none⟩, [("title", .str "y")]⟩]
    ⟨"000000000000000000000002", "y", false, zeroTime⟩ (by decide) (by decide) rfl rfl⟩

/-- C6: deleting twice an identifier that a document of a well-formed
collection carries: the first `deleteTodo`, served by the store, answers 200;
the second, whatever the store does, writes a failure response (it does not
panic) whose status is neither 200 nor 400, issues the remove call, and leaves
the collection as the first call left it. -/
theorem C6_delete_twice (env1 env2 : Env) (r : Request) (db : Collection) (d : Doc)
    (hwf : WellFormed db) (hd : d ∈ db)
    (ho : ObjectIdHex (TrimSpace r.idParam) = some d.id)
    (hup : env1.storeFault = none) :
    (deleteTodo env1 r db).out.status = some 200 ∧
    (∃ resp, (deleteTodo env2 r (deleteTodo env1 r db).store).out = .wrote resp ∧
      resp.status ≠ 200 ∧ resp.status ≠ 400 ∧ ¬ is2xx resp.status) ∧
    (deleteTodo env2 r (deleteTodo env1 r db).store).store = (deleteTodo env1 r db).store := by
  obtain ⟨hout, hgone⟩ := deleteTodo_existing env1 r db d hwf.1 hd ho hup
  obtain ⟨e, he⟩ := deleteTodo_missing env2 r (deleteTodo env1 r db).store d.id ho
    (fun x hx => (hgone x hx).2)
  refine ⟨by rw [hout]; rfl, ?_, by rw [he]⟩
  rw [he]
  refine ⟨_, rfl, ?_, ?_, ?_⟩
  · show (102 : Nat) ≠ 200
    decide
  · show (102 : Nat) ≠ 400
    decide
  · show ¬ is2xx 102
    decide

theorem C6_delete_twice_witness :
    let env : Env := ⟨5, 9, none⟩
    let db : Collection :=
      [⟨NewObjectId ⟨1, 0, none⟩, [("title", .str "x")]⟩,
       ⟨NewObjectId ⟨2, 0, none⟩, [("title", .str "y")]⟩]
    let r : Request := ⟨" 000000000000000000000002\n", .error "EOF"⟩
    WellFormed db ∧
    ObjectIdHex (TrimSpace r.idParam) = some (NewObjectId ⟨2, 0, none⟩) ∧
    (deleteTodo env r db).out.status = some 200 ∧
    (∃ resp, (deleteTodo env r (deleteTodo env r db).store).out = .wrote resp ∧
      resp.status ≠ 200 ∧ resp.status ≠ 400 ∧ ¬ is2xx resp.status) ∧
    (deleteTodo env r (deleteTodo env r db).store).store = (deleteTodo env r db).store :=
  ⟨by decide, by decide,
   C6_delete_twice ⟨5, 9, none⟩ ⟨5, 9, none⟩ ⟨" 000000000000000000000002\n", .error "EOF"⟩
    [⟨NewObjectId ⟨1, 0, none⟩, [("title", .str "x")]⟩,
     ⟨NewObjectId ⟨2, 0, none⟩, [("title", .str "y")]⟩]
    ⟨NewObjectId ⟨2, 0, none⟩, [("title", .str "y")]⟩ (by decide) (by decide) (by decide) rfl⟩

/-! ## Update -/

theorem updateTodo_valid (env : Env) (r : Request) (db : Collection) (oid : ObjectId)
    (t : todo) (ho : ObjectIdHex (TrimSpace r.idParam) = some oid)
    (hb : r.body = .ok t) (ht : t.Title ≠ "") :
    updateTodo env r db =
      match db.Update env.storeFault oid
          [("title", .str t.Title), ("Completed", .bool t.Completed)] with
      | .error dbErr =>
        ⟨.wrote ⟨StatusProcessing,
          .obj [("message", .str "Failed to update todo"), ("error", .err dbErr)]⟩,
         [.update oid [("title", .str t.Title), ("Completed", .bool t.Completed)]], db⟩
      | .ok db' =>
        ⟨.noWrite, [.update oid [("title", .str t.Title), ("Completed", .bool t.Completed)]],
         db'⟩ := by
  have hv := IsObjectIdHex_of_ObjectIdHex _ oid ho
  simp [updateTodo, hv, ho, hb, ht]

/-- The collection after `updateTodo` is the collection before, or the
collection before with one document replaced by a title and a `Completed`
element, the title being non-empty. -/
theorem updateTodo_store (env : Env) (r : Request) (db : Collection) :
    (updateTodo env r db).store = db ∨
    ∃ (oid : ObjectId) (t : todo), t.Title ≠ "" ∧
      replaceFirst oid [("title", .str t.Title), ("Completed", .bool t.Completed)] db
        = some (updateTodo env r db).store := by
  cases hv : IsObjectIdHex (TrimSpace r.idParam) with
  | false => rw [updateTodo_invalid_id env r db hv]; exact Or.inl rfl
  | true =>
    obtain ⟨oid, ho, _⟩ := ObjectIdHex_of_IsObjectIdHex _ hv
    cases hb : r.body with
    | error e => left; simp [updateTodo, hv, hb]
    | ok t =>
      by_cases ht : t.Title = ""
      · left; simp [updateTodo, hv, hb, ht]
      · rw [updateTodo_valid env r db oid t ho hb ht]
        unfold Collection.Update
        cases hf : env.storeFault with
        | some e => exact Or.inl rfl
        | none =>
          cases hrep : replaceFirst oid
              [("title", .str t.Title), ("Completed", .bool t.Completed)] db with
          | none => exact Or.inl rfl
          | some db' => exact Or.inr ⟨oid, t, ht, hrep⟩

theorem is2xx_StatusProcessing : ¬ is2xx StatusProcessing := by
  decide

/-- C9: `updateTodo` checks the identifier, then the body, then the title.
An identifier that is not 24 hexadecimal characters after trimming yields 400
whatever the body is; with a valid identifier an unparsable body yields a
status outside 2xx; with a valid identifier and a parsable body an empty title
yields a status outside 2xx with a message; in each case no store call is
issued and the collection is unchanged. -/
theorem C9_updateTodo_validation_order (env : Env) (r : Request) (db : Collection) :
    (¬ validObjectIdText (TrimSpace r.idParam) →
      (updateTodo env r db).out.status = some 400 ∧
      (updateTodo env r db).calls = [] ∧ (updateTodo env r db).store = db) ∧
    (validObjectIdText (TrimSpace r.idParam) → ∀ e : String, r.body = .error e →
      (∃ s, (updateTodo env r db).out.status = some s ∧ ¬ is2xx s) ∧
      (updateTodo env r db).calls = [] ∧ (updateTodo env r db).store = db) ∧
    (validObjectIdText (TrimSpace r.idParam) → ∀ t : todo, r.body = .ok t → t.Title = "" →
      (∃ s msg, (updateTodo env r db).out = .wrote ⟨s, .obj [("message", .str msg)]⟩ ∧
        ¬ is2xx s) ∧
      (updateTodo env r db).calls = [] ∧ (updateTodo env r db).store = db) := by
  refine ⟨fun h => ?_, fun h e hb => ?_, fun h t hb ht => ?_⟩
  · rw [updateTodo_invalid_id env r db (IsObjectIdHex_false_of_not_valid _ h)]
    exact ⟨rfl, rfl, rfl⟩
  · have hv := (IsObjectIdHex_iff _).2 h
    have hu : updateTodo env r db = ⟨.wrote ⟨StatusProcessing, .val (.err e)⟩, [], db⟩ := by
      simp [updateTodo, hv, hb]
    rw [hu]
    exact ⟨⟨StatusProcessing, rfl, is2xx_StatusProcessing⟩, rfl, rfl⟩
  · have hv := (IsObjectIdHex_iff _).2 h
    have hu : updateTodo env r db =
        ⟨.wrote ⟨StatusProcessing, .obj [("message", .str "Title is requried")]⟩, [], db⟩ := by
      simp [updateTodo, hv, hb, ht]
    rw [hu]
    exact ⟨⟨StatusProcessing, _, rfl, is2xx_StatusProcessing⟩, rfl, rfl⟩

theorem C9_updateTodo_validation_order_witness :
    let env : Env := ⟨5, 9, none⟩
    let db : Collection := [⟨NewObjectId ⟨1, 0, none⟩, [("title", .str "x")]⟩]
    let r1 : Request := ⟨"12345", .error "unexpected EOF"⟩
    let r2 : Request := ⟨"000000000000000000000001", .error "unexpected EOF"⟩
    let r3 : Request := ⟨"000000000000000000000001", .ok ⟨"", "", true, 0⟩⟩
    (¬ validObjectIdText (TrimSpace r1.idParam) ∧
      (updateTodo env r1 db).out.status = some 400 ∧
      (updateTodo env r1 db).calls = [] ∧ (updateTodo env r1 db).store = db) ∧
    (validObjectIdText (TrimSpace r2.idParam) ∧
      (∃ s, (updateTodo env r2 db).out.status = some s ∧ ¬ is2xx s) ∧
      (updateTodo env r2 db).calls = [] ∧ (updateTodo env r2 db).store = db) ∧
    (validObjectIdText (TrimSpace r3.idParam) ∧
      (∃ s msg, (updateTodo env r3 db).out = .wrote ⟨s, .obj [("message", .str msg)]⟩ ∧
        ¬ is2xx s) ∧
      (updateTodo env r3 db).calls = [] ∧ (updateTodo env r3 db).store = db) :=
  ⟨⟨by decide,
    (C9_updateTodo_validation_order ⟨5, 9, none⟩ ⟨"12345", .error "unexpected EOF"⟩
      [⟨NewObjectId ⟨1, 0, none⟩, [("title", .str "x")]⟩]).1 (by decide)⟩,
   ⟨by decide,
    (C9_updateTodo_validation_order ⟨5, 9, none⟩
      ⟨"000000000000000000000001", .error "unexpected EOF"⟩
      [⟨NewObjectId ⟨1, 0, none⟩, [("title", .str "x")]⟩]).2.1 (by decide)
      "unexpected EOF" rfl⟩,
   ⟨by decide,
    (C9_updateTodo_validation_order ⟨5, 9, none⟩
      ⟨"000000000000000000000001", .ok ⟨"", "", true, 0⟩⟩
      [⟨NewObjectId ⟨1, 0, none⟩, [("title", .str "x")]⟩]).2.2 (by decide)
      ⟨"", "", true, 0⟩ rfl rfl⟩⟩

/-! ## The title invariant -/

theorem createTodo_store (env : Env) (r : Request) (db : Collection) :
    (createTodo env r db).store = db ∨
    ∃ t : todo, t.Title ≠ "" ∧
      (createTodo env r db).store =
        db ++ [marshal ⟨NewObjectId env, t.Title, false, env.now⟩] := by
  cases hb : r.body with
  | error e => left; simp [createTodo, hb]
  | ok t =>
    by_cases ht : t.Title = ""
    · left; simp [createTodo, hb, ht]
    · cases hins : db.Insert env.storeFault (marshal ⟨NewObjectId env, t.Title, false, env.now⟩) with
      | error e => left; simp only [createTodo, hb, if_neg ht, hins]
      | ok db' =>
        right
        obtain ⟨_, _, hdb'⟩ := Insert_ok db db' _ _ hins
        exact ⟨t, ht, by simp only [createTodo, hb, if_neg ht, hins, hdb']⟩

theorem deleteTodo_store (env : Env) (r : Request) (db : Collection) :
    ∀ x ∈ (deleteTodo env r db).store, x ∈ db := by
  cases hv : IsObjectIdHex (TrimSpace r.idParam) with
  | false => rw [deleteTodo_invalid_id env r db hv]; exact fun x hx => hx
  | true =>
    obtain ⟨oid, ho, _⟩ := ObjectIdHex_of_IsObjectIdHex _ hv
    rw [deleteTodo_valid env r db oid ho]
    unfold Collection.RemoveId
    cases hf : env.storeFault with
    | some e => exact fun x hx => hx
    | none =>
      cases hrem : removeFirst oid db with
      | none => exact fun x hx => hx
      | some db' => exact removeFirst_mem oid db db' hrem

/-- C10: if every stored item has a non-empty title, then so it is after any
single call of `createTodo`, `updateTodo`, `deleteTodo` or `fetchTodos`, for
every environment and every request. -/
theorem C10_titles_stay_nonempty (env : Env) (r : Request) (db : Collection)
    (h : TitlesNonEmpty db) :
    TitlesNonEmpty (createTodo env r db).store ∧
    TitlesNonEmpty (updateTodo env r db).store ∧
    TitlesNonEmpty (deleteTodo env r db).store ∧
    TitlesNonEmpty (fetchTodos env r db).store := by
  refine ⟨?_, ?_, ?_, ?_⟩
  · rcases createTodo_store env r db with hs | ⟨t, ht, hs⟩
    · rw [hs]; exact h
    · rw [hs]
      intro d hd
      rcases List.mem_append.1 hd with hd | hd
      · exact h d hd
      · rw [List.mem_singleton.1 hd, unmarshal_marshal]
        exact ht
  · rcases updateTodo_store env r db with hs | ⟨oid, t, ht, hs⟩
    · rw [hs]; exact h
    · intro d hd
      rcases replaceFirst_mem oid _ db _ hs d hd with hd | hd
      · exact h d hd
      · rw [hd, unmarshal_update]
        exact ht
  · exact fun d hd => h d (deleteTodo_store env r db d hd)
  · rw [fetchTodos_store]; exact h

theorem C10_titles_stay_nonempty_witness :
    let env : Env := ⟨2, 1500000, none⟩
    let db : Collection := [⟨NewObjectId ⟨1, 0, none⟩, [("title", .str "x")]⟩]
    let r : Request := ⟨"000000000000000000000001", .ok ⟨"", "b", true, 0⟩⟩
    TitlesNonEmpty db ∧
    TitlesNonEmpty (createTodo env r db).store ∧
    TitlesNonEmpty (updateTodo env r db).store ∧
    TitlesNonEmpty (deleteTodo env r db).store ∧
    TitlesNonEmpty (fetchTodos env r db).store :=
  ⟨by decide,
   C10_titles_stay_nonempty ⟨2, 1500000, none⟩
    ⟨"000000000000000000000001", .ok ⟨"", "b", true, 0⟩⟩
    [⟨NewObjectId ⟨1, 0, none⟩, [("title", .str "x")]⟩] (by decide)⟩

/-! ## Update followed by list -/

theorem replaceFirst_of_mem (id : ObjectId) (fields : List (String × BsonValue))
    (db : Collection) (h : ∃ d ∈ db, d.id = id) :
    ∃ db', replaceFirst id fields db = some db' ∧ { id := id, fields := fields } ∈ db' := by
  induction db with
  | nil => obtain ⟨d, hd, _⟩ := h; cases hd
  | cons d ds ih =>
    by_cases hd : d.id = id
    · refine ⟨{ id := d.id, fields := fields } :: ds, by simp only [replaceFirst, if_pos hd], ?_⟩
      rw [hd]
      exact List.mem_cons_self _ _
    · obtain ⟨x, hx, hxid⟩ := h
      have hx' : x ∈ ds := by
        rcases List.mem_cons.1 hx with rfl | hx'
        · exact absurd hxid hd
        · exact hx'
      obtain ⟨ds', hds', hmem⟩ := ih ⟨x, hx', hxid⟩
      exact ⟨d :: ds', by simp only [replaceFirst, if_neg hd, hds'],
        List.mem_cons_of_mem _ hmem⟩

theorem replaceFirst_unique (id : ObjectId) (fields : List (String × BsonValue))
    (db db' : Collection) (hn : (db.map Doc.id).Nodup)
    (h : replaceFirst id fields db = some db') :
    ∀ x ∈ db', x.id = id → x = { id := id, fields := fields } := by
  induction db generalizing db' with
  | nil => simp [replaceFirst] at h
  | cons d ds ih =>
    rw [List.map_cons, List.nodup_cons] at hn
    by_cases hd : d.id = id
    · simp only [replaceFirst, if_pos hd, Option.some.injEq] at h
      subst h
      intro x hx hxid
      rcases List.mem_cons.1 hx with rfl | hx'
      · rw [hd]
      · exact absurd (hd ▸ hxid ▸ List.mem_map_of_mem Doc.id hx') hn.1
    · simp only [replaceFirst, if_neg hd] at h
      cases hr : replaceFirst id fields ds with
      | none => simp [hr] at h
      | some ds' =>
        simp only [hr, Option.some.injEq] at h
        subst h
        intro x hx hxid
        rcases List.mem_cons.1 hx with rfl | hx'
        · exact absurd hxid hd
        · exact ih ds' hn.2 hr x hx' hxid

/-- What the list shows after a served update of a stored identifier: the item
with that identifier has the new title, completed=false and the zero time as
created-at, whatever the body's `completed` and the item's former created-at. -/
theorem updateTodo_then_list (env env' : Env) (r r' : Request) (db : Collection)
    (oid : ObjectId) (t : todo)
    (hn : (db.map Doc.id).Nodup) (hex : ∃ d ∈ db, d.id = oid)
    (ho : ObjectIdHex (TrimSpace r.idParam) = some oid)
    (hb : r.body = .ok t) (ht : t.Title ≠ "")
    (hup : env.storeFault = none) (hread : env'.storeFault = none) :
    (updateTodo env r db).out = .noWrite ∧
    (⟨oid.Hex, t.Title, false, zeroTime⟩ : todo) ∈
      (fetchTodos env' r' (updateTodo env r db).store).out.data ∧
    ∀ x ∈ (fetchTodos env' r' (updateTodo env r db).store).out.data,
      x.ID = oid.Hex → x = ⟨oid.Hex, t.Title, false, zeroTime⟩ := by
  obtain ⟨db', hrep, hmem⟩ := replaceFirst_of_mem oid
    [("title", .str t.Title), ("Completed", .bool t.Completed)] db hex
  have hu : updateTodo env r db =
      ⟨.noWrite, [.update oid [("title", .str t.Title), ("Completed", .bool t.Completed)]],
       db'⟩ := by
    rw [updateTodo_valid env r db oid t ho hb ht]
    simp only [Collection.Update, hup, hrep]
  rw [hu, fetchTodos_ok env' r' db' hread]
  refine ⟨rfl, ?_, ?_⟩
  · simp only [Outcome.data, List.mem_map]
    exact ⟨_, hmem, by rw [unmarshal_update]; rfl⟩
  · intro x hx hxid
    simp only [Outcome.data, List.mem_map] at hx
    obtain ⟨d, hd, rfl⟩ := hx
    have hdid : d.id = oid := by
      apply Hex_injective
      have : (toWire (unmarshal d)).ID = d.id.Hex := by simp [toWire, unmarshal_id]
      rw [← this, hxid]
    rw [replaceFirst_unique oid _ db db' hn hrep d hd hdid, unmarshal_update]
    rfl

/-- C2, evaluated: the collection holds one item with identifier
`000000000000000000000001`, title `a`, completed=false and created-at 7 ms.
`updateTodo` with that identifier and the body title `b`, completed=true writes
no response and stores the document `title: b, Completed: true`; `fetchTodos`
then lists the item with title `b` but completed=false and the zero time as
created-at. -/
theorem C2_update_then_list_evaluated :
    let env : Env := ⟨9, 8000000, none⟩
    let db : Collection :=
      [⟨NewObjectId ⟨1, 0, none⟩,
        [("title", .str "a"), ("completed", .bool false), ("createAt", .datetime 7)]⟩]
    let get : Request := ⟨"", .error "EOF"⟩
    let put : Request := ⟨"000000000000000000000001", .ok ⟨"", "b", true, zeroTime⟩⟩
    (fetchTodos env get db).out.data =
      [⟨"000000000000000000000001", "a", false, 7000000⟩] ∧
    (updateTodo env put db).out = .noWrite ∧
    (updateTodo env put db).store =
      [⟨NewObjectId ⟨1, 0, none⟩, [("title", .str "b"), ("Completed", .bool true)]⟩] ∧
    (fetchTodos env get (updateTodo env put db).store).out.data =
      [⟨"000000000000000000000001", "b", false, zeroTime⟩] := by
  decide

/-! ## Store failures and the identifier invariant -/

/-- When the driver fails the store call, each handler that reaches it writes
status 102 and leaves the collection unchanged. -/
theorem store_fault_handled (env : Env) (r : Request) (db : Collection) (e : String)
    (hf : env.storeFault = some e) :
    (fetchTodos env r db).out.status = some 102 ∧ (fetchTodos env r db).store = db ∧
    (createTodo env r db).store = db ∧
    (updateTodo env r db).store = db ∧
    (deleteTodo env r db).store = db := by
  refine ⟨?_, fetchTodos_store env r db, ?_, ?_, ?_⟩
  · simp [fetchTodos, Collection.All, hf, Outcome.status, StatusProcessing]
  · rcases createTodo_store env r db with hs | ⟨t, ht, hs⟩
    · exact hs
    · cases hb : r.body with
      | error e' => simp [createTodo, hb]
      | ok t' =>
        by_cases ht' : t'.Title = ""
        · simp [createTodo, hb, ht']
        · simp [createTodo, hb, ht', Collection.Insert, hf]
  · rcases updateTodo_store env r db with hs | ⟨oid, t, ht, hs⟩
    · exact hs
    · cases hv : IsObjectIdHex (TrimSpace r.idParam) with
      | false => rw [updateTodo_invalid_id env r db hv]
      | true =>
        obtain ⟨oid', ho, _⟩ := ObjectIdHex_of_IsObjectIdHex _ hv
        cases hb : r.body with
        | error e' => simp [updateTodo, hv, hb]
        | ok t' =>
          by_cases ht' : t'.Title = ""
          · simp [updateTodo, hv, hb, ht']
          · rw [updateTodo_valid env r db oid' t' ho hb ht']
            simp only [Collection.Update, hf]
  · cases hv : IsObjectIdHex (TrimSpace r.idParam) with
    | false => rw [deleteTodo_invalid_id env r db hv]
    | true =>
      obtain ⟨oid, ho, _⟩ := ObjectIdHex_of_IsObjectIdHex _ hv
      rw [deleteTodo_valid env r db oid ho]
      simp only [Collection.RemoveId, hf]

theorem replaceFirst_ids (id : ObjectId) (fields : List (String × BsonValue))
    (db db' : Collection) (h : replaceFirst id fields db = some db') :
    db'.map Doc.id = db.map Doc.id := by
  induction db generalizing db' with
  | nil => simp [replaceFirst] at h
  | cons d ds ih =>
    by_cases hd : d.id = id
    · simp only [replaceFirst, if_pos hd, Option.some.injEq] at h
      subst h
      rfl
    · simp only [replaceFirst, if_neg hd] at h
      cases hr : replaceFirst id fields ds with
      | none => simp [hr] at h
      | some ds' =>
        simp only [hr, Option.some.injEq] at h
        subst h
        simp only [List.map_cons, ih ds' hr]

theorem removeFirst_sublist (id : ObjectId) (db db' : Collection)
    (h : removeFirst id db = some db') : db'.Sublist db := by
  induction db generalizing db' with
  | nil => simp [removeFirst] at h
  | cons d ds ih =>
    by_cases hd : d.id = id
    · simp only [removeFirst, if_pos hd, Option.some.injEq] at h
      subst h
      exact List.sublist_cons_self _ _
    · simp only [removeFirst, if_neg hd] at h
      cases hr : removeFirst id ds with
      | none => simp [hr] at h
      | some ds' =>
        simp only [hr, Option.some.injEq] at h
        subst h
        exact (ih ds' hr).cons₂ d

/-- Unique 12-byte identifiers are kept by every handler: the insert refuses a
duplicate, the update keeps the `_id`, the delete only removes. -/
theorem WellFormed_preserved (env : Env) (r : Request) (db : Collection)
    (h : WellFormed db) :
    WellFormed (createTodo env r db).store ∧
    WellFormed (updateTodo env r db).store ∧
    WellFormed (deleteTodo env r db).store ∧
    WellFormed (fetchTodos env r db).store := by
  refine ⟨?_, ?_, ?_, ?_⟩
  · cases hb : r.body with
    | error e => simpa [createTodo, hb] using h
    | ok t =>
      by_cases ht : t.Title = ""
      · simpa [createTodo, hb, ht] using h
      · cases hins : db.Insert env.storeFault
            (marshal ⟨NewObjectId env, t.Title, false, env.now⟩) with
        | error e =>
          have : (createTodo env r db).store = db := by
            simp only [createTodo, hb, if_neg ht, hins]
          rw [this]; exact h
        | ok db' =>
          obtain ⟨_, hfresh, hdb'⟩ := Insert_ok db db' _ _ hins
          have : (createTodo env r db).store = db' := by
            simp only [createTodo, hb, if_neg ht, hins]
          rw [this, hdb']
          refine ⟨?_, ?_⟩
          · rw [List.map_append, List.nodup_append]
            refine ⟨h.1, List.nodup_singleton _, ?_⟩
            intro a ha hb'
            obtain ⟨d, hd, rfl⟩ := List.mem_map.1 ha
            simp only [List.map_cons, List.map_nil, List.mem_singleton] at hb'
            exact hfresh d hd hb'
          · intro d hd
            rcases List.mem_append.1 hd with hd | hd
            · exact h.2 d hd
            · rw [List.mem_singleton.1 hd]
              exact NewObjectId_length env
  · rcases updateTodo_store env r db with hs | ⟨oid, t, _, hs⟩
    · rw [hs]; exact h
    · refine ⟨by rw [replaceFirst_ids oid _ db _ hs]; exact h.1, fun d hd => ?_⟩
      have hmem : d.id ∈ (updateTodo env r db).store.map Doc.id := List.mem_map_of_mem _ hd
      rw [replaceFirst_ids oid _ db _ hs] at hmem
      obtain ⟨d0, hd0, hid⟩ := List.mem_map.1 hmem
      rw [← hid]
      exact h.2 d0 hd0
  · refine ⟨?_, fun d hd => h.2 d (deleteTodo_store env r db d hd)⟩
    cases hv : IsObjectIdHex (TrimSpace r.idParam) with
    | false => rw [deleteTodo_invalid_id env r db hv]; exact h.1
    | true =>
      obtain ⟨oid, ho, _⟩ := ObjectIdHex_of_IsObjectIdHex _ hv
      rw [deleteTodo_valid env r db oid ho]
      unfold Collection.RemoveId
      cases hf : env.storeFault with
      | some e => exact h.1
      | none =>
        cases hrem : removeFirst oid db with
        | none => exact h.1
        | some db' => exact h.1.sublist ((removeFirst_sublist oid db db' hrem).map Doc.id)
  · rw [fetchTodos_store]; exact h

end TodoApp
